import Mathlib

/-!
Verification of the network-event classification and normalization pipeline of the
apex-inspector DevTools extension (src/src/devtools/DevtoolsPanel.tsx).

The pipeline receives one completed HTTP exchange at a time, parses its request and
response bodies as JSON, classifies the exchange into one of five call shapes by URL
and payload tests, and extracts canonical call records.  This file embeds the decisive
functions of DevtoolsPanel.tsx as executable Lean definitions over a JSON value model
and proves properties about them.

Conventions of the embedding:
* JavaScript values decoded from JSON are modelled by `Json`; `Option Json` models a
  variable that may hold `null`/`undefined` (both behave alike in every access the
  embedded code performs, so they are identified).
* JavaScript truthiness, `||` defaulting, property access (including the fact that
  property access on `null` raises a TypeError which the surrounding `try`/`catch`
  turns into "no records emitted"), and object spread are modelled by the `js*`
  helpers below, each annotated with the construct it models.
* Wall-clock and randomness inputs (`Date.now()`, the random suffix produced by
  `generateBoxcarId`) are supplied through an explicit `Env`, making every function a
  pure function of its inputs.
-/

/-- JSON values, as produced by `JSON.parse`.  Object fields are kept in insertion
order; keys are unique in every value produced by `JSON.parse`, and the development
only builds and reasons about duplicate-free objects. -/
inductive Json where
  | null : Json
  | bool (b : Bool) : Json
  | num (n : Int) : Json
  | str (s : String) : Json
  | arr (elems : List Json) : Json
  | obj (fields : List (String × Json)) : Json

mutual

def Json.decEq : (a b : Json) → Decidable (a = b)
  | .null, .null => isTrue rfl
  | .bool a, .bool b =>
    if h : a = b then isTrue (h ▸ rfl) else isFalse (fun e => by cases e; exact h rfl)
  | .num a, .num b =>
    if h : a = b then isTrue (h ▸ rfl) else isFalse (fun e => by cases e; exact h rfl)
  | .str a, .str b =>
    if h : a = b then isTrue (h ▸ rfl) else isFalse (fun e => by cases e; exact h rfl)
  | .arr xs, .arr ys =>
    match Json.decEqList xs ys with
    | isTrue h => isTrue (h ▸ rfl)
    | isFalse h => isFalse (fun e => by cases e; exact h rfl)
  | .obj xs, .obj ys =>
    match Json.decEqFields xs ys with
    | isTrue h => isTrue (h ▸ rfl)
    | isFalse h => isFalse (fun e => by cases e; exact h rfl)
  | .null, .bool _ => isFalse (fun e => Json.noConfusion e)
  | .null, .num _ => isFalse (fun e => Json.noConfusion e)
  | .null, .str _ => isFalse (fun e => Json.noConfusion e)
  | .null, .arr _ => isFalse (fun e => Json.noConfusion e)
  | .null, .obj _ => isFalse (fun e => Json.noConfusion e)
  | .bool _, .null => isFalse (fun e => Json.noConfusion e)
  | .bool _, .num _ => isFalse (fun e => Json.noConfusion e)
  | .bool _, .str _ => isFalse (fun e => Json.noConfusion e)
  | .bool _, .arr _ => isFalse (fun e => Json.noConfusion e)
  | .bool _, .obj _ => isFalse (fun e => Json.noConfusion e)
  | .num _, .null => isFalse (fun e => Json.noConfusion e)
  | .num _, .bool _ => isFalse (fun e => Json.noConfusion e)
  | .num _, .str _ => isFalse (fun e => Json.noConfusion e)
  | .num _, .arr _ => isFalse (fun e => Json.noConfusion e)
  | .num _, .obj _ => isFalse (fun e => Json.noConfusion e)
  | .str _, .null => isFalse (fun e => Json.noConfusion e)
  | .str _, .bool _ => isFalse (fun e => Json.noConfusion e)
  | .str _, .num _ => isFalse (fun e => Json.noConfusion e)
  | .str _, .arr _ => isFalse (fun e => Json.noConfusion e)
  | .str _, .obj _ => isFalse (fun e => Json.noConfusion e)
  | .arr _, .null => isFalse (fun e => Json.noConfusion e)
  | .arr _, .bool _ => isFalse (fun e => Json.noConfusion e)
  | .arr _, .num _ => isFalse (fun e => Json.noConfusion e)
  | .arr _, .str _ => isFalse (fun e => Json.noConfusion e)
  | .arr _, .obj _ => isFalse (fun e => Json.noConfusion e)
  | .obj _, .null => isFalse (fun e => Json.noConfusion e)
  | .obj _, .bool _ => isFalse (fun e => Json.noConfusion e)
  | .obj _, .num _ => isFalse (fun e => Json.noConfusion e)
  | .obj _, .str _ => isFalse (fun e => Json.noConfusion e)
  | .obj _, .arr _ => isFalse (fun e => Json.noConfusion e)

def Json.decEqList : (a b : List Json) → Decidable (a = b)
  | [], [] => isTrue rfl
  | [], _ :: _ => isFalse (fun e => List.noConfusion e)
  | _ :: _, [] => isFalse (fun e => List.noConfusion e)
  | x :: xs, y :: ys =>
    match Json.decEq x y, Json.decEqList xs ys with
    | isTrue h1, isTrue h2 => isTrue (h1 ▸ h2 ▸ rfl)
    | isFalse h1, _ => isFalse (fun e => by cases e; exact h1 rfl)
    | _, isFalse h2 => isFalse (fun e => by cases e; exact h2 rfl)

def Json.decEqFields : (a b : List (String × Json)) → Decidable (a = b)
  | [], [] => isTrue rfl
  | [], _ :: _ => isFalse (fun e => List.noConfusion e)
  | _ :: _, [] => isFalse (fun e => List.noConfusion e)
  | (k1, v1) :: xs, (k2, v2) :: ys =>
    match (inferInstance : Decidable (k1 = k2)), Json.decEq v1 v2, Json.decEqFields xs ys with
    | isTrue h0, isTrue h1, isTrue h2 => isTrue (h0 ▸ h1 ▸ h2 ▸ rfl)
    | isFalse h0, _, _ => isFalse (fun e => by cases e; exact h0 rfl)
    | _, isFalse h1, _ => isFalse (fun e => by cases e; exact h1 rfl)
    | _, _, isFalse h2 => isFalse (fun e => by cases e; exact h2 rfl)

end

instance : DecidableEq Json := Json.decEq

/-! ### String utilities modelling the JavaScript string operations used by the source -/

/-- Is the first list a prefix of the second? (Boolean, by direct recursion.) -/
def isPrefixOfChars : List Char → List Char → Bool
  | [], _ => true
  | _ :: _, [] => false
  | c :: cs, d :: ds => c == d && isPrefixOfChars cs ds

/-- Does `needle` occur as a contiguous run inside `hay`? -/
def containsSubAux : List Char → List Char → Bool
  | [], needle => isPrefixOfChars needle []
  | h :: t, needle => isPrefixOfChars needle (h :: t) || containsSubAux t needle

/-- Models JavaScript `hay.includes(needle)` (substring test). -/
def strIncludes (hay needle : String) : Bool :=
  containsSubAux hay.data needle.data

/-- Models JavaScript `s.startsWith(p)`. -/
def strStartsWith (s p : String) : Bool :=
  isPrefixOfChars p.data s.data

/-- Models JavaScript `s.substring(0, n)`. -/
def strTake (s : String) (n : Nat) : String :=
  String.mk (s.data.take n)

/-- Models an ASCII `toLowerCase` (header names compared by the source are ASCII). -/
def asciiLower (s : String) : String :=
  String.mk (s.data.map Char.toLower)

def splitCharAux (sep : Char) : List Char → List Char → List String
  | [], acc => [String.mk acc.reverse]
  | c :: rest, acc =>
    if c == sep then String.mk acc.reverse :: splitCharAux sep rest []
    else splitCharAux sep rest (c :: acc)

/-- Models JavaScript `s.split(sep)` for a single-character separator. -/
def jsSplit (s : String) (sep : Char) : List String :=
  splitCharAux sep s.data []

def digitChar : Nat → Char
  | 0 => '0' | 1 => '1' | 2 => '2' | 3 => '3' | 4 => '4'
  | 5 => '5' | 6 => '6' | 7 => '7' | 8 => '8' | 9 => '9'
  | _ => '?'

/-- Reversed decimal digits of `n`, with explicit fuel to keep the recursion
structural (for `fuel ≥ n` the fuel never runs out). -/
def natDigitsRevAux : Nat → Nat → List Char
  | _, 0 => []
  | 0, _ + 1 => []
  | n + 1, fuel + 1 => digitChar ((n + 1) % 10) :: natDigitsRevAux ((n + 1) / 10) fuel

/-- Decimal representation of a natural number; models the JavaScript
number-to-string conversion performed by `+` and template literals on the
(non-negative integral) indices and timestamps the source concatenates. -/
def jsNatToString (n : Nat) : String :=
  if n = 0 then "0" else String.mk (natDigitsRevAux n n).reverse

/-! ### JavaScript value semantics on `Json` -/

/-- JavaScript truthiness of a JSON value. -/
def jsTruthy : Json → Bool
  | .null => false
  | .bool b => b
  | .num n => n != 0
  | .str s => s != ""
  | .arr _ => true
  | .obj _ => true

/-- `v && typeof v === 'object'`: truthy and of object type (arrays included,
`null` excluded by truthiness). -/
def truthyObj : Json → Bool
  | .obj _ => true
  | .arr _ => true
  | _ => false

/-- Is the variable `null`/`undefined`?  Plain property access on such a value
raises a TypeError in JavaScript. -/
def isNullish : Option Json → Bool
  | none => true
  | some .null => true
  | _ => false

/-- First-match association-list lookup (JSON objects have unique keys). -/
def lookupField : List (String × Json) → String → Option Json
  | [], _ => none
  | (k, v) :: rest, key => if k = key then some v else lookupField rest key

/-- Models JavaScript property access `j[key]` on a non-nullish value: a present
object field, or `undefined` (`none`) for anything else. -/
def jsGet : Json → String → Option Json
  | .obj fields, key => lookupField fields key
  | _, _ => none

/-- Models optional-chained access `v?.[key]` / access after a nullish guard. -/
def jsGetOpt : Option Json → String → Option Json
  | some j, key => jsGet j key
  | none, _ => none

/-- Property access with the distinguished value known to be a string:
`typeof j[key] === 'string' ? j[key] : undefined`. -/
def getStrJ (j : Json) (key : String) : Option String :=
  match jsGet j key with
  | some (Json.str s) => some s
  | _ => none

/-- Models JavaScript indexing `v?.[i]` with a number index: array element,
object property named by the decimal index, or character of a string. -/
def jsIndex : Json → Nat → Option Json
  | .arr xs, i => xs.get? i
  | .obj fields, i => lookupField fields (jsNatToString i)
  | .str s, i => (s.data.get? i).map (fun c => Json.str (String.mk [c]))
  | _, _ => none

def jsIndexOpt : Option Json → Nat → Option Json
  | some j, i => jsIndex j i
  | none, _ => none

/-- Models JavaScript `v || d` where `v` may be absent: the value if truthy,
otherwise the default. -/
def jsOrDefault : Option Json → Json → Json
  | some v, d => if jsTruthy v then v else d
  | none, d => d

/-- Models JavaScript `s || d` on an optional string (an empty string is falsy). -/
def jsOrStr : Option String → String → String
  | some s, d => if s = "" then d else s
  | none, d => d

mutual

/-- Models JavaScript `String(v)` coercion. -/
def jsString : Json → String
  | .null => "null"
  | .bool true => "true"
  | .bool false => "false"
  | .num n => toString n
  | .str s => s
  | .arr xs => String.intercalate "," (jsStringList xs)
  | .obj _ => "[object Object]"

def jsStringList : List Json → List String
  | [] => []
  | x :: xs => jsString x :: jsStringList xs

end

/-- Fields `("i", xᵢ)` produced by spreading an array (or indexing a string) into
an object literal, starting at index `i`. -/
def indexedFieldsFrom (i : Nat) : List Json → List (String × Json)
  | [] => []
  | x :: xs => (jsNatToString i, x) :: indexedFieldsFrom (i + 1) xs

/-- The fields contributed by `{...v}` for a value `v`. -/
def toSpreadFields : Json → List (String × Json)
  | .obj fields => fields
  | .arr xs => indexedFieldsFrom 0 xs
  | .str s => indexedFieldsFrom 0 (s.data.map (fun c => Json.str (String.mk [c])))
  | _ => []

/-- Models the object literal `{...a, ...b}`: for every key, the lookup result is
`b`'s value if present there, else `a`'s.  (Duplicate keys keep `b`'s entry; the
stored position of an overridden key is normalized, which no lookup observes.) -/
def spreadFields (a b : List (String × Json)) : List (String × Json) :=
  a.filter (fun p => (lookupField b p.1).isNone) ++ b

/-! ### The exchange model and the environment of volatile inputs -/

/-- One completed HTTP exchange as delivered to `handleMessage` (the fields the
embedded code reads).  `requestId` is `request.requestId` (`none`/`""` are falsy),
`startedAtMs` is the parsed `request.startedDateTime` when present and truthy,
`timeMs` is `request.time`. -/
structure Exchange where
  url : String
  requestId : Option String
  startedAtMs : Option Nat
  timeMs : Nat
deriving DecidableEq

/-- Volatile inputs of one normalization run: the value of `Date.now()` and the
random suffix that `generateBoxcarId` draws from `Math.random()`/`Date.now()`. -/
structure Env where
  now : Nat
  boxcarSuffix : String
deriving DecidableEq

/-- DevtoolsPanel.tsx `generateBoxcarId`: `'boxcar-' + <random/time suffix>`. -/
def generateBoxcarId (env : Env) : String :=
  "boxcar-" ++ env.boxcarSuffix

/-- `request.requestId || request.request.url`, used both as the network request id
stored on records and as the exchange part of fallback record ids. -/
def exchangeKey (ex : Exchange) : String :=
  jsOrStr ex.requestId ex.url

/-- `request.startedDateTime ? new Date(request.startedDateTime).getTime() : Date.now()`. -/
def timestampOf (env : Env) (ex : Exchange) : Nat :=
  ex.startedAtMs.getD env.now

/-- The canonical call record (`ApexAction` in DevtoolsPanel.tsx).  `fullRequest`
is the unmodified host envelope (the `Exchange` itself) and is not duplicated here;
`network.latency` always equals `latency` (`request.time`) and is likewise folded. -/
structure ApexAction where
  id : String
  timestamp : Nat
  apexClass : String
  method : String
  latency : Nat
  request : Json
  response : Json
  rawRequest : Json
  rawResponse : Json
  context : Json
  networkRequestId : String
  networkUrl : String
  fullResponse : Option Json
  error : Option String
  boxcarId : Option String
deriving DecidableEq

/-! ### Payload Parser: response body decoding (DevtoolsPanel.tsx lines 194-208) -/

/-- A raw body text abstracted by the outcome of `JSON.parse` on it: either it is
well-formed JSON (represented by its parse), or it is malformed text on which
`JSON.parse` raises.  Well-formed JSON text is never the empty string, so a
`wellFormed` body is always truthy. -/
inductive BodyText where
  | wellFormed (j : Json) : BodyText
  | malformed (raw : String) : BodyText
deriving DecidableEq

/-- Truthiness of the underlying body string. -/
def bodyTruthy : BodyText → Bool
  | .wellFormed _ => true
  | .malformed s => s != ""

/-- `JSON.parse` under the enclosing `try`/`catch`: a parse exception yields the
absent-parse sentinel, never an exception. -/
def parseBody : BodyText → Option Json
  | .wellFormed j => some j
  | .malformed _ => none

/-- The response half of a raw exchange as read by the parser:
`request.response?.content?.text` and `request.response?.headers`. -/
structure RawResponse where
  contentText : Option BodyText
  headers : Option (List (String × String))

/-- `headers.find(h => h.name.toLowerCase() === 'content-type')?.value`. -/
def findContentType (headers : List (String × String)) : Option String :=
  (headers.find? (fun h => asciiLower h.1 == "content-type")).map Prod.snd

def responseContentType (r : RawResponse) : Option String :=
  match r.headers with
  | some hs => findContentType hs
  | none => none

/-- Does the declared content type indicate JSON?  (`contentType?.includes('application/json')`.) -/
def contentTypeIsJson (r : RawResponse) : Bool :=
  match responseContentType r with
  | some ct => strIncludes ct "application/json"
  | none => false

/-- DevtoolsPanel.tsx lines 194-208: the response body is decoded only when the
text is present (truthy) and the declared content type indicates JSON; parse
exceptions yield the absent sentinel. -/
def parseResponseJson (r : RawResponse) : Option Json :=
  match r.contentText with
  | some bt => if bodyTruthy bt && contentTypeIsJson r then parseBody bt else none
  | none => none

/-! ### Call Classifier (DevtoolsPanel.tsx lines 213-217, 222, 312, 446-449, 601-637) -/

inductive CallShape where
  | webruntimeSingle : CallShape
  | vfRemoting : CallShape
  | graphQL : CallShape
  | uiRecordApi : CallShape
  | auraBatch : CallShape
deriving DecidableEq

/-- Line 217: `!reqPostData || typeof reqPostData !== 'object'` skips the exchange;
objects and arrays pass, `null` and primitives do not. -/
def validReqData : Option Json → Bool
  | some (Json.obj _) => true
  | some (Json.arr _) => true
  | _ => false

/-- Line 214: `request.request.url.includes('/webruntime/api/apex/execute')`. -/
def isWebruntimeUrl (url : String) : Bool :=
  strIncludes url "/webruntime/api/apex/execute"

/-- Line 312: `request.request.url.includes('/apexremote')`. -/
def isVfRemotingUrl (url : String) : Bool :=
  strIncludes url "/apexremote"

/-- Lines 446-449: `url.includes('/aura') && (url.includes('aura.RecordUi.executeGraphQL')
|| url.includes('executeGraphQL'))`.  The test is purely a URL test. -/
def isGraphQLCallUrl (url : String) : Bool :=
  strIncludes url "/aura" &&
    (strIncludes url "aura.RecordUi.executeGraphQL" || strIncludes url "executeGraphQL")

/-- Lines 621-635: does some entry of the `actions` array carry a descriptor string
mentioning `RecordUiController`? (root-level descriptor as fallback). -/
def descriptorHasRecordUi (a : Json) : Bool :=
  match a with
  | Json.obj fs =>
    match lookupField fs "descriptor" with
    | some (Json.str d) => strIncludes d "RecordUiController"
    | _ => false
  | _ => false

/-- Lines 605-636.  The source first re-parses an embedded form `message` string if
one is present; the payload parser has already unwrapped the form encoding before
this point, and on re-parse failure the source falls back to checking the original
object, which is the case modelled here. -/
def hasRecordUiDescriptor (reqJson : Json) : Bool :=
  match jsGet reqJson "actions" with
  | some (Json.arr actions) => actions.any descriptorHasRecordUi
  | _ =>
    match jsGet reqJson "descriptor" with
    | some (Json.str d) => strIncludes d "RecordUiController"
    | _ => false

/-- Lines 601-637: URL names `aura.RecordUi.` directly, or the payload carries a
`RecordUiController` descriptor. -/
def isUiRecordApiCall (url : String) (reqJson : Json) : Bool :=
  strIncludes url "/aura" &&
    (strIncludes url "aura.RecordUi." || hasRecordUiDescriptor reqJson)

/-- The shape dispatch of `handleMessage`, in source order: validity gate (line 217),
then web-runtime (line 222), VF remoting (line 314), GraphQL (line 451),
uiRecordApi (line 639), with the Aura branch as the fallthrough (line 855). -/
def classify (url : String) (reqJson : Option Json) : Option CallShape :=
  if validReqData reqJson then
    if isWebruntimeUrl url then some CallShape.webruntimeSingle
    else if isVfRemotingUrl url then some CallShape.vfRemoting
    else if isGraphQLCallUrl url then some CallShape.graphQL
    else if isUiRecordApiCall url (reqJson.getD Json.null) then some CallShape.uiRecordApi
    else some CallShape.auraBatch
  else none

/-- Modelled from the spec (§4.3 step 3): "the payload contains an action descriptor
referencing a GraphQL execution capability" — some entry of the request's `actions`
array has a descriptor string naming the `executeGraphQL` capability.  Used only to
compare the spec's classification rule with the one the source implements. -/
def specPayloadHasGraphQLDescriptor (reqJson : Json) : Bool :=
  match jsGet reqJson "actions" with
  | some (Json.arr actions) =>
    actions.any (fun a =>
      match a with
      | Json.obj fs =>
        match lookupField fs "descriptor" with
        | some (Json.str d) => strIncludes d "executeGraphQL"
        | _ => false
      | _ => false)
  | _ => false

/-! ### Class-name mappings (DevtoolsPanel.tsx lines 1890-1920) -/

/-- `Map.set`: replace the value of an existing key in place, else append. -/
def mapSet (m : List (String × String)) (k v : String) : List (String × String) :=
  match m with
  | [] => [(k, v)]
  | (k0, v0) :: rest => if k0 = k then (k0, v) :: rest else (k0, v0) :: mapSet rest k v

/-- `Map.get` (first match; keys are unique by construction of `mapSet`). -/
def mapGet (m : List (String × String)) (k : String) : Option String :=
  match m with
  | [] => none
  | (k0, v0) :: rest => if k0 = k then some v0 else mapGet rest k

/-- One `records.forEach` step of `parseApexClassMappings` (lines 1902-1913): store
the full id and, for ids longer than 15 characters, the 15-character truncation.
A `null` entry makes `record.Id` raise; the surrounding `catch` then keeps the
mappings accumulated so far, so the remaining entries are dropped. -/
def addMappings : List (String × String) → List Json → List (String × String)
  | m, [] => m
  | m, Json.null :: _ => m
  | m, Json.obj fs :: rest =>
    match lookupField fs "Id", lookupField fs "Name" with
    | some (Json.str i), some (Json.str n) =>
      if i != "" && n != "" then
        let m1 := mapSet m i n
        addMappings (if i.length > 15 then mapSet m1 (strTake i 15) n else m1) rest
      else addMappings m rest
    | _, _ => addMappings m rest
  | m, _ :: rest => addMappings m rest

/-- DevtoolsPanel.tsx `parseApexClassMappings`, taking the settings blob abstracted
by its parse outcome (`none` for blank input or a parse failure, both of which
yield an empty mapping): reads `parsed?.result?.records` and folds the entries. -/
def parseApexClassMappings (parsed : Option Json) : List (String × String) :=
  match jsGetOpt (jsGetOpt parsed "result") "records" with
  | some (Json.arr records) => addMappings [] records
  | _ => []

/-! ### WebruntimeSingle normalizer (DevtoolsPanel.tsx lines 222-308) -/

/-- The note object built when an obfuscated class id has no mapping entry
(lines 254-258). -/
def webruntimeHelpTextInfo (originalApexClass : String) : Json :=
  Json.obj
    [("originalClassName", Json.str originalApexClass),
     ("note", Json.str "Class name is obfuscated in Community Cloud. Configure Apex Class Mappings in settings to see real names."),
     ("needsMapping", Json.bool true)]

/-- Lines 239-261: resolve an obfuscated `@.../<id>` class name through the
mappings; on a miss surface the id part together with the `needsMapping` note.
Returns the resolved display name and the optional note object. -/
def resolveWebruntimeClass (mappings : List (String × String)) (originalApexClass : String) :
    String × Option Json :=
  let isObfuscated := strStartsWith originalApexClass "@" && strIncludes originalApexClass "/"
  if isObfuscated then
    let idPart : Option String := (jsSplit originalApexClass '/').get? 1
    match idPart with
    | some ip =>
      if ip != "" then
        match mapGet mappings ip with
        | some nm => (nm, none)
        | none => (ip, some (webruntimeHelpTextInfo originalApexClass))
      else (originalApexClass, some (webruntimeHelpTextInfo originalApexClass))
    | none => (originalApexClass, some (webruntimeHelpTextInfo originalApexClass))
  else (originalApexClass, none)

/-- Lines 266-282: the webruntime response object and error message.  The error
message is set when `error`/`errors`/`isError` is truthy at the response root:
a string `error` field wins, else the stringified first element of an `errors`
array, else the generic message. -/
def webruntimeResponseError (resJson : Option Json) : Json × Option String :=
  match resJson with
  | some r =>
    if truthyObj r then
      if jsTruthy ((jsGet r "error").getD Json.null)
          || jsTruthy ((jsGet r "errors").getD Json.null)
          || jsTruthy ((jsGet r "isError").getD Json.null) then
        (r, some (match jsGet r "error" with
          | some (Json.str s) => s
          | _ =>
            match jsGet r "errors" with
            | some (Json.arr (e0 :: _)) => jsString e0
            | _ => "Webruntime API error occurred"))
      else (r, none)
    else (Json.obj [], none)
  | none => (Json.obj [], none)

/-- The record built by the webruntime branch for a string class name
(lines 284-307). -/
def mkWebruntimeRecord (env : Env) (ex : Exchange) (mappings : List (String × String))
    (reqJson : Json) (resJson : Option Json) (originalApexClass : String) : ApexAction :=
  let resolved := resolveWebruntimeClass mappings originalApexClass
  let actualClassName := resolved.1
  let helpTextInfo := resolved.2
  let fullClassName :=
    match jsGet reqJson "namespace" with
    | some v => if jsTruthy v then jsString v ++ "." ++ actualClassName else actualClassName
    | none => actualClassName
  let respErr := webruntimeResponseError resJson
  { id := "webruntime-" ++ exchangeKey ex ++ "-" ++ jsNatToString env.now
    timestamp := timestampOf env ex
    apexClass := fullClassName
    method := jsString (jsOrDefault (jsGet reqJson "method") (Json.str "[Unknown Method]"))
    latency := ex.timeMs
    request := jsOrDefault (jsGet reqJson "params") (Json.obj [])
    response := respErr.1
    rawRequest := reqJson
    rawResponse := jsOrDefault resJson (Json.obj [])
    context := helpTextInfo.getD (Json.obj [])
    networkRequestId := exchangeKey ex
    networkUrl := ex.url
    fullResponse := resJson
    error := respErr.2
    boxcarId := none }

/-- The webruntime branch (lines 222-309): always exactly one record for a string
(or defaulted) class name.  A truthy non-string `classname` makes
`originalApexClass.startsWith('@')` raise a TypeError; the handler's `catch`
then drops the exchange without emitting a record. -/
def webruntimeNormalize (env : Env) (ex : Exchange) (mappings : List (String × String))
    (reqJson : Json) (resJson : Option Json) : List ApexAction :=
  match jsOrDefault (jsGet reqJson "classname") (Json.str "[Unknown Class]") with
  | Json.str originalApexClass =>
    [mkWebruntimeRecord env ex mappings reqJson resJson originalApexClass]
  | _ => []

/-! ### Aura (Lightning) normalizer (DevtoolsPanel.tsx lines 855-1068) -/

/-- Line 876: an action qualifies when it is a non-null object whose `descriptor`
is exactly `aura://ApexActionController/ACTION$execute`. -/
def isApexExecuteAction (a : Json) : Bool :=
  match a with
  | Json.obj fs =>
    match lookupField fs "descriptor" with
    | some (Json.str d) => d == "aura://ApexActionController/ACTION$execute"
    | _ => false
  | _ => false

/-- Line 880: `(action as Record<string, unknown>).params || {}`. -/
def auraParams (action : Json) : Json :=
  jsOrDefault (jsGet action "params") (Json.obj [])

/-- Lines 887-894: the value held by the `apexClass` variable — the `classname`
field if it is a string, else the `className` field if it is a string, else the
placeholder string. -/
def auraClassVal (paramsObj : Json) : Json :=
  match jsGet paramsObj "classname" with
  | some (Json.str s) => Json.str s
  | _ =>
    match jsGet paramsObj "className" with
    | some (Json.str s) => Json.str s
    | _ => Json.str "[Unknown Class]"

/-- Lines 897-904: the value held by the `apexMethod` variable — `method`, else
`methodName`, else the placeholder. -/
def auraMethodVal (paramsObj : Json) : Json :=
  match jsGet paramsObj "method" with
  | some (Json.str s) => Json.str s
  | _ =>
    match jsGet paramsObj "methodName" with
    | some (Json.str s) => Json.str s
    | _ => Json.str "[Unknown Method]"

def isStringVal : Json → Bool
  | .str _ => true
  | _ => false

/-- The string held by a value produced under an `as string` coercion. -/
def asStringVal : Json → String
  | .str s => s
  | v => jsString v

/-- Lines 978-981: `typeof apexClass === 'string' && typeof apexMethod === 'string'`. -/
def auraStringGuard (paramsObj : Json) : Bool :=
  isStringVal (auraClassVal paramsObj) && isStringVal (auraMethodVal paramsObj)

/-- Line 910 / 970: `(resJsonObj.actions as unknown[])?.[idx]`. -/
def auraActionResponse (resJson : Option Json) (idx : Nat) : Option Json :=
  jsIndexOpt (jsGetOpt resJson "actions") idx

/-- Line 914 / 997: `(resJsonObj.actions as unknown[])?.[idx] || {}`. -/
def auraRawResp (resJson : Option Json) (idx : Nat) : Json :=
  jsOrDefault (auraActionResponse resJson idx) (Json.obj [])

/-- Lines 910-913 and 970-972: the return-value object of the response entry —
`actionResponse && typeof actionResponse === 'object' ? actionResponse.returnValue : {}`,
then defaulted to `{}` unless itself a truthy object. -/
def auraReturnValueObj (actionResponse : Option Json) : Json :=
  let initial : Option Json :=
    match actionResponse with
    | some a => if truthyObj a then jsGet a "returnValue" else some (Json.obj [])
    | none => some (Json.obj [])
  match initial with
  | some v => if truthyObj v then v else Json.obj []
  | none => Json.obj []

/-- `'message' in errorObj && typeof errorObj.message === 'string'` with the
default message (lines 920, 930-931). -/
def msgFromFields (fs : List (String × Json)) : String :=
  match lookupField fs "message" with
  | some (Json.str m) => m
  | _ => "Unknown Apex error"

/-- The inner treatment of the first element of an `error`/`errors` array
(lines 924-936 / 940-949): an object keeps all its fields as details and its
string `message` when present; anything else is stringified. -/
def errorFromVal (v : Json) : List (String × Json) × String :=
  match v with
  | Json.obj fs => (fs, msgFromFields fs)
  | Json.arr xs => (indexedFieldsFrom 0 xs, "Unknown Apex error")
  | other =>
    let m := jsString other
    ([("message", Json.str m)], m)

/-- Lines 917-966: extract `(errorDetails, errorMsg)` from an ERROR-state response
entry.  Checked in order: a non-empty `error` array, a non-empty `errors` array,
a truthy-object `error`, a string `error`, then the generic fallback. -/
def auraErrorExtract (rawRespFields : List (String × Json)) : List (String × Json) × String :=
  match lookupField rawRespFields "error" with
  | some (Json.arr (e :: _)) => errorFromVal e
  | errOpt =>
    match lookupField rawRespFields "errors" with
    | some (Json.arr (e :: _)) => errorFromVal e
    | _ =>
      match errOpt with
      | some (Json.obj fs) => (fs, msgFromFields fs)
      | some (Json.arr xs) => (indexedFieldsFrom 0 xs, "Unknown Apex error")
      | some (Json.str s) => ([("message", Json.str s)], s)
      | _ => ([("message", Json.str "Unknown Apex error")], "Unknown Apex error")

/-- Lines 915-977: the error extraction runs only when the response entry is a
truthy object whose `state` is exactly `'ERROR'`. -/
def auraErrorInfo (resJson : Option Json) (idx : Nat) :
    Option (List (String × Json) × String) :=
  match auraRawResp resJson idx with
  | Json.obj fs =>
    match lookupField fs "state" with
    | some (Json.str st) => if st == "ERROR" then some (auraErrorExtract fs) else none
    | _ => none
  | _ => none

/-- The `responseObj` stored on the record: on error, all error details flattened
at the top level with the partial return value spread over them (line 973
`{ ...errorDetails, ...returnValueObj }`); otherwise the return-value object. -/
def auraResponseObj (resJson : Option Json) (idx : Nat) : Json :=
  match auraErrorInfo resJson idx with
  | some (details, _) =>
    Json.obj (spreadFields details (toSpreadFields (auraReturnValueObj (auraActionResponse resJson idx))))
  | none => auraReturnValueObj (auraActionResponse resJson idx)

/-- Lines 1140-1160, `getApexActionUniqueId`'s probing of a single object: a string
`id` field, else a string `actionId` field.  A non-object (or nullish) value has
neither. -/
def objIdOf : Option Json → Option String
  | some (Json.obj fs) =>
    (match lookupField fs "id" with
     | some (Json.str s) => some s
     | _ =>
       match lookupField fs "actionId" with
       | some (Json.str s) => some s
       | _ => none)
  | _ => none

/-- Line 1156: `/^[a-zA-Z0-9_-]{10,}$/.test(key)`. -/
def isLongIdKey (k : String) : Bool :=
  decide (k.length ≥ 10) && k.data.all (fun c => c.isAlphanum || c == '-' || c == '_')

/-- `Object.keys` of a truthy `perfSummary` value (array keys are decimal indices). -/
def perfSummaryKeys : Option Json → List String
  | some (Json.obj fs) => fs.map Prod.fst
  | some (Json.arr xs) => (List.range xs.length).map jsNatToString
  | _ => []

/-- DevtoolsPanel.tsx `getApexActionUniqueId` (lines 1140-1160): id from the
action, else from the response entry, else the first performance-summary key
matching the long-identifier pattern. -/
def getApexActionUniqueId (action response perfSummary : Option Json) : Option String :=
  match objIdOf action with
  | some s => some s
  | none =>
    match objIdOf response with
    | some s => some s
    | none => (perfSummaryKeys perfSummary).find? isLongIdKey

/-- Lines 985-987: `getApexActionUniqueId(...) || (request.requestId || request.request.url) + "-" + idx`
(JavaScript `||`, so an empty resolved id also falls back). -/
def auraRecordId (ex : Exchange) (action response perfSummary : Option Json) (idx : Nat) : String :=
  jsOrStr (getApexActionUniqueId action response perfSummary)
    (exchangeKey ex ++ "-" ++ jsNatToString idx)

/-- Lines 989-991: prefix a truthy string `namespace` from params with a `.`. -/
def auraNamespacedClass (paramsObj : Json) (apexClass : String) : String :=
  match getStrJ paramsObj "namespace" with
  | some ns => if ns = "" then apexClass else ns ++ "." ++ apexClass
  | none => apexClass

/-- The record built for a qualifying action when the string guard passes
(lines 982-1009). -/
def auraParsedRecord (env : Env) (ex : Exchange) (resJson : Option Json)
    (boxcarId : Option String) (idx : Nat) (action : Json) : ApexAction :=
  let paramsObj := auraParams action
  { id := auraRecordId ex (some action) (auraActionResponse resJson idx)
      (jsGetOpt resJson "perfSummary") idx
    timestamp := timestampOf env ex
    apexClass := auraNamespacedClass paramsObj (asStringVal (auraClassVal paramsObj))
    method := asStringVal (auraMethodVal paramsObj)
    latency := ex.timeMs
    request := paramsObj
    response := auraResponseObj resJson idx
    rawRequest := action
    rawResponse := auraRawResp resJson idx
    context := jsOrDefault (jsGetOpt resJson "context") (Json.obj [])
    networkRequestId := exchangeKey ex
    networkUrl := ex.url
    fullResponse := resJson
    error := (auraErrorInfo resJson idx).map Prod.snd
    boxcarId := boxcarId }

/-- The raw-data-only record of the `else` branch (lines 1010-1038), emitted when
the string guard fails. -/
def auraUnparsedRecord (env : Env) (ex : Exchange) (resJson : Option Json)
    (boxcarId : Option String) (idx : Nat) (action : Json) : ApexAction :=
  { id := auraRecordId ex (some action) (auraActionResponse resJson idx)
      (jsGetOpt resJson "perfSummary") idx
    timestamp := timestampOf env ex
    apexClass := "[Unparsed] ApexAction"
    method := "[Unparsed] execute"
    latency := ex.timeMs
    request := Json.obj []
    response := Json.obj []
    rawRequest := action
    rawResponse := auraRawResp resJson idx
    context := Json.obj []
    networkRequestId := exchangeKey ex
    networkUrl := ex.url
    fullResponse := resJson
    error := some "Could not parse Apex class/method. See raw data."
    boxcarId := boxcarId }

/-- Record construction for one qualifying action: the string guard of lines
978-981 chooses between the parsed and the raw-data-only record. -/
def mkAuraRecord (env : Env) (ex : Exchange) (resJson : Option Json)
    (boxcarId : Option String) (idx : Nat) (action : Json) : ApexAction :=
  if auraStringGuard (auraParams action) then
    auraParsedRecord env ex resJson boxcarId idx action
  else
    auraUnparsedRecord env ex resJson boxcarId idx action

/-- The `actionsArr.forEach((action, idx) => ...)` loop (lines 871-1040): one
record per qualifying action, non-qualifying entries are skipped (they still
occupy their index). -/
def auraRecordsFrom (env : Env) (ex : Exchange) (resJson : Option Json)
    (boxcarId : Option String) : Nat → List Json → List ApexAction
  | _, [] => []
  | idx, a :: rest =>
    (if isApexExecuteAction a then [mkAuraRecord env ex resJson boxcarId idx a] else []) ++
      auraRecordsFrom env ex resJson boxcarId (idx + 1) rest

/-- The generic entry of the no-actions-array fallback (lines 1041-1067). -/
def auraFallbackRecord (env : Env) (ex : Exchange) (reqJson : Json)
    (resJson : Option Json) : ApexAction :=
  { id := "fallback-" ++ exchangeKey ex ++ "-" ++ jsNatToString env.now
    timestamp := timestampOf env ex
    apexClass := "[Unknown Format]"
    method := "[Unknown]"
    latency := ex.timeMs
    request := reqJson
    response := jsOrDefault resJson (Json.obj [])
    rawRequest := reqJson
    rawResponse := jsOrDefault resJson (Json.obj [])
    context := Json.obj []
    networkRequestId := exchangeKey ex
    networkUrl := ex.url
    fullResponse := resJson
    error := some "Could not parse request format. See raw data."
    boxcarId := none }

/-- The Aura branch of `handleMessage` (lines 855-1068).  When the request JSON has
an `actions` array: a boxcar id is generated iff the array (qualifying or not) has
more than one entry (lines 867-869), and each qualifying action yields one record.
If the response JSON is nullish while some action qualifies, line 910's property
access `resJsonObj.actions` raises a TypeError before any record of this exchange
is appended; the handler's `catch` (line 1069) then drops the exchange.  Without an
`actions` array a single generic fallback entry is emitted. -/
def auraNormalize (env : Env) (ex : Exchange) (reqJson : Json)
    (resJson : Option Json) : List ApexAction :=
  match jsGet reqJson "actions" with
  | some (Json.arr actionsArr) =>
    let boxcarId := if actionsArr.length > 1 then some (generateBoxcarId env) else none
    if isNullish resJson && actionsArr.any isApexExecuteAction then []
    else auraRecordsFrom env ex resJson boxcarId 0 actionsArr
  | _ => [auraFallbackRecord env ex reqJson resJson]

/-- Modelled from the spec (§4.5): the ordered identity-resolution chain — an `id`
field on the raw action, an `actionId` field on the raw action, the same two fields
on the raw response fragment, then a performance-summary key matching the
long-identifier pattern.  Used only to compare the spec's resolution order with
`getApexActionUniqueId`. -/
def specResolveUniqueId (action response perfSummary : Option Json) : Option String :=
  (stringFieldOf action "id").orElse fun _ =>
  (stringFieldOf action "actionId").orElse fun _ =>
  (stringFieldOf response "id").orElse fun _ =>
  (stringFieldOf response "actionId").orElse fun _ =>
  (perfSummaryKeys perfSummary).find? isLongIdKey
where
  stringFieldOf (v : Option Json) (k : String) : Option String :=
    match v with
    | some j => getStrJ j k
    | none => none

/-- Erase the fields that depend on the volatile inputs of a run: the wall-clock
timestamp and the freshly generated boxcar id. -/
def stripVolatile (r : ApexAction) : ApexAction :=
  { r with timestamp := 0, boxcarId := none }

/-- A placeholder record (used only to select elements of computed lists in
closed statements). -/
def defaultApexAction : ApexAction :=
  { id := ""
    timestamp := 0
    apexClass := ""
    method := ""
    latency := 0
    request := Json.null
    response := Json.null
    rawRequest := Json.null
    rawResponse := Json.null
    context := Json.null
    networkRequestId := ""
    networkUrl := ""
    fullResponse := none
    error := none
    boxcarId := none }

/-! ### Auxiliary definitions used by the statements and proofs -/

/-- Inverse of `digitChar` on decimal digits (proof tool only). -/
def charDigit : Char → Nat
  | '0' => 0 | '1' => 1 | '2' => 2 | '3' => 3 | '4' => 4
  | '5' => 5 | '6' => 6 | '7' => 7 | '8' => 8 | '9' => 9
  | _ => 0

/-- Decode a reversed decimal digit list (proof tool only). -/
def decodeRev : List Char → Nat
  | [] => 0
  | c :: rest => charDigit c + 10 * decodeRev rest

/-- The `needsMapping` flag stored in a record's context metadata. -/
def contextNeedsMapping (r : ApexAction) : Option Json :=
  jsGet r.context "needsMapping"

/-! ### Concrete inputs used by witnesses and counterexamples -/

def exampleExchange : Exchange :=
  { url := "https://org.lightning.force.com/aura?r=1"
    requestId := some "req-9"
    startedAtMs := some 1700000000000
    timeMs := 42 }

def exampleEnv : Env := { now := 5555, boxcarSuffix := "w1" }

def exampleEnvB : Env := { now := 5555, boxcarSuffix := "w2" }

/-- A qualifying Apex server-side-procedure action entry. -/
def apexExecAction (cls mth : String) : Json :=
  Json.obj
    [("descriptor", Json.str "aura://ApexActionController/ACTION$execute"),
     ("params", Json.obj [("classname", Json.str cls), ("method", Json.str mth)])]

/-- A framework bookkeeping action (non-qualifying descriptor). -/
def bookkeepingAction : Json :=
  Json.obj [("descriptor", Json.str "aura://ComponentController/ACTION$getComponent")]

def c1Actions : List Json :=
  [apexExecAction "AccountController" "fetch", apexExecAction "ContactController" "save"]

/-- A batched Aura request with two qualifying actions, neither carrying an id. -/
def c1Request : Json := Json.obj [("actions", Json.arr c1Actions)]

/-- A response whose entries carry no ids either, with a performance-summary map
holding one long alphanumeric key. -/
def c1Response : Json :=
  Json.obj
    [("actions", Json.arr
        [Json.obj [("state", Json.str "SUCCESS"), ("returnValue", Json.str "x")],
         Json.obj [("state", Json.str "SUCCESS")]]),
     ("perfSummary", Json.obj [("actionXYZ123456", Json.num 1)])]

def c2Actions : List Json :=
  [bookkeepingAction, apexExecAction "AccountController" "fetch"]

/-- An Aura request whose `actions` array has two entries, only one qualifying. -/
def c2Request : Json := Json.obj [("actions", Json.arr c2Actions)]

/-- A gateway-path payload whose single action descriptor references the GraphQL
execution capability. -/
def c3DescRequest : Json :=
  Json.obj [("actions", Json.arr
    [Json.obj [("descriptor",
        Json.str "serviceComponent://ui.gql.GraphQLController/ACTION$executeGraphQL")]])]

/-- A qualifying action whose params resolve neither class nor method field names. -/
def c4Action : Json :=
  Json.obj
    [("descriptor", Json.str "aura://ApexActionController/ACTION$execute"),
     ("params", Json.obj [("unrelated", Json.num 1)])]

def c4Actions : List Json := [c4Action]

def c4Request : Json := Json.obj [("actions", Json.arr c4Actions)]

def c4Response : Json :=
  Json.obj [("actions", Json.arr [Json.obj [("state", Json.str "SUCCESS"),
    ("returnValue", Json.obj [("value", Json.num 7)])]])]

/-- An ERROR-state response entry with the error array of the claim and a partial
return value `rv`. -/
def c5RespEntry (rv : List (String × Json)) : Json :=
  Json.obj
    [("state", Json.str "ERROR"),
     ("error", Json.arr
        [Json.obj [("message", Json.str "Bad input"), ("exceptionType", Json.str "X")]]),
     ("returnValue", Json.obj rv)]

def c5PartialReturn : List (String × Json) := [("data", Json.str "partial")]

def c5Response : Json := Json.obj [("actions", Json.arr [c5RespEntry c5PartialReturn])]

def c5Actions : List Json := [apexExecAction "OrderController" "place"]

def c5Request : Json := Json.obj [("actions", Json.arr c5Actions)]

/-- A webruntime request with the obfuscated class name of the claim. -/
def c7Request : Json :=
  Json.obj
    [("classname", Json.str "@xyz/01p000000000001"),
     ("method", Json.str "doIt"),
     ("params", Json.obj [("arg", Json.num 1)])]

/-- SF CLI output holding one record whose 18-character id truncates to the
claim's 15-character id. -/
def c7CliJson : Json :=
  Json.obj [("result", Json.obj [("records", Json.arr
    [Json.obj [("Id", Json.str "01p000000000001AAA"), ("Name", Json.str "MyController")]])])]

def c8PlainTextResponse : RawResponse :=
  { contentText := some (BodyText.wellFormed (Json.obj [("ok", Json.bool true)]))
    headers := some [("Content-Type", "text/plain")] }

def c8MalformedJsonResponse : RawResponse :=
  { contentText := some (BodyText.malformed "not json")
    headers := some [("Content-Type", "application/json; charset=UTF-8")] }

/-! ### Helper lemmas -/

theorem isPrefixOfChars_iff (p l : List Char) :
    isPrefixOfChars p l = true ↔ ∃ t, l = p ++ t := by
  induction p generalizing l with
  | nil => simp [isPrefixOfChars]
  | cons c cs ih =>
    cases l with
    | nil =>
      simp [isPrefixOfChars]
    | cons d ds =>
      simp only [isPrefixOfChars, Bool.and_eq_true, beq_iff_eq, ih, List.cons_append,
        List.cons.injEq]
      constructor
      · rintro ⟨rfl, t, rfl⟩
        exact ⟨t, rfl, rfl⟩
      · rintro ⟨t, rfl, rfl⟩
        exact ⟨rfl, t, rfl⟩

theorem containsSubAux_iff (hay needle : List Char) :
    containsSubAux hay needle = true ↔ ∃ pre post, hay = pre ++ needle ++ post := by
  induction hay with
  | nil =>
    simp only [containsSubAux, isPrefixOfChars_iff]
    constructor
    · rintro ⟨t, ht⟩
      rcases List.append_eq_nil.mp ht.symm with ⟨h1, h2⟩
      exact ⟨[], [], by simp [h1]⟩
    · rintro ⟨pre, post, h⟩
      rcases List.append_eq_nil.mp h.symm with ⟨h1, h2⟩
      rcases List.append_eq_nil.mp h1 with ⟨h3, h4⟩
      exact ⟨[], by simp [h4]⟩
  | cons h t ih =>
    simp only [containsSubAux, Bool.or_eq_true, isPrefixOfChars_iff, ih]
    constructor
    · rintro (⟨t', ht⟩ | ⟨pre, post, hp⟩)
      · exact ⟨[], t', by simp [ht]⟩
      · exact ⟨h :: pre, post, by simp [hp]⟩
    · rintro ⟨pre, post, hp⟩
      cases pre with
      | nil =>
        exact Or.inl ⟨post, by simpa using hp⟩
      | cons p ps =>
        right
        injection hp with h1 h2
        exact ⟨ps, post, h2⟩

theorem strIncludes_of_longer (u : String)
    (h : strIncludes u "aura.RecordUi.executeGraphQL" = true) :
    strIncludes u "executeGraphQL" = true := by
  unfold strIncludes at h ⊢
  rw [containsSubAux_iff] at h ⊢
  rcases h with ⟨pre, post, hp⟩
  have hsplit : ("aura.RecordUi.executeGraphQL" : String).data
      = ("aura.RecordUi." : String).data ++ ("executeGraphQL" : String).data := by decide
  refine ⟨pre ++ ("aura.RecordUi." : String).data, post, ?_⟩
  rw [hp, hsplit]
  simp [List.append_assoc]

theorem charDigit_digitChar : ∀ d, d < 10 → charDigit (digitChar d) = d := by decide

theorem decodeRev_natDigitsRevAux : ∀ fuel n, n ≤ fuel →
    decodeRev (natDigitsRevAux n fuel) = n := by
  intro fuel
  induction fuel with
  | zero =>
    intro n hn
    have : n = 0 := Nat.le_zero.mp hn
    subst this
    rfl
  | succ f ih =>
    intro n hn
    match n with
    | 0 => rfl
    | m + 1 =>
      have h1 : (m + 1) % 10 < 10 := Nat.mod_lt _ (by norm_num)
      have h2 : (m + 1) / 10 ≤ f := by
        have hd : (m + 1) / 10 < m + 1 := Nat.div_lt_self (Nat.succ_pos m) (by norm_num)
        omega
      show decodeRev (digitChar ((m + 1) % 10) :: natDigitsRevAux ((m + 1) / 10) f) = m + 1
      simp only [decodeRev, charDigit_digitChar _ h1, ih _ h2]
      omega

theorem decodeRev_jsNatToString (n : Nat) :
    decodeRev (jsNatToString n).data.reverse = n := by
  unfold jsNatToString
  by_cases h : n = 0
  · subst h
    decide
  · simp only [h, if_false]
    show decodeRev (natDigitsRevAux n n).reverse.reverse = n
    rw [List.reverse_reverse]
    exact decodeRev_natDigitsRevAux n n le_rfl

theorem jsNatToString_inj {m n : Nat} (h : jsNatToString m = jsNatToString n) : m = n := by
  have := congrArg (fun s => decodeRev s.data.reverse) h
  simpa [decodeRev_jsNatToString] using this

theorem string_data_inj {s t : String} (h : s.data = t.data) : s = t := by
  cases s
  cases t
  cases h
  rfl

theorem appendNatId_inj (base : String) {i j : Nat}
    (h : base ++ "-" ++ jsNatToString i = base ++ "-" ++ jsNatToString j) : i = j := by
  apply jsNatToString_inj
  apply string_data_inj
  have hd := congrArg String.data h
  simp only [String.data_append, List.append_assoc] at hd
  exact List.append_cancel_left (List.append_cancel_left hd)

theorem lookupField_append (a b : List (String × Json)) (k : String) :
    lookupField (a ++ b) k = ((lookupField a k).orElse (fun _ => lookupField b k)) := by
  induction a with
  | nil => simp [lookupField, Option.orElse]
  | cons p rest ih =>
    by_cases h : p.1 = k
    · simp [lookupField, h, Option.orElse]
    · simp [lookupField, h, ih]

theorem lookupField_filter_of_some {b : List (String × Json)} {k : String} {v : Json}
    (h : lookupField b k = some v) (a : List (String × Json)) :
    lookupField (a.filter fun p => (lookupField b p.1).isNone) k = none := by
  induction a with
  | nil => rfl
  | cons p rest ih =>
    by_cases hk : p.1 = k
    · have : (lookupField b p.1).isNone = false := by rw [hk, h]; rfl
      simp [List.filter_cons, this, ih]
    · by_cases hp : (lookupField b p.1).isNone
      · simp [List.filter_cons, hp, lookupField, hk, ih]
      · simp at hp
        simp [List.filter_cons, hp, ih]

theorem lookupField_spread_right {b : List (String × Json)} {k : String} {v : Json}
    (h : lookupField b k = some v) (a : List (String × Json)) :
    lookupField (spreadFields a b) k = some v := by
  unfold spreadFields
  rw [lookupField_append, lookupField_filter_of_some h a]
  simp [Option.orElse, h]

theorem lookupField_filter_of_none {b : List (String × Json)} {k : String}
    (h : lookupField b k = none) (a : List (String × Json)) :
    lookupField (a.filter fun p => (lookupField b p.1).isNone) k = lookupField a k := by
  induction a with
  | nil => rfl
  | cons p rest ih =>
    by_cases hk : p.1 = k
    · have : (lookupField b p.1).isNone = true := by rw [hk, h]; rfl
      rcases p with ⟨k0, v0⟩
      simp only at hk
      subst hk
      simp [List.filter_cons, this, lookupField, h]
    · rcases p with ⟨k0, v0⟩
      simp only at hk
      by_cases hp : (lookupField b k0).isNone
      · simp [List.filter_cons, hp, lookupField, hk, ih]
      · simp at hp
        simp [List.filter_cons, hp, lookupField, hk, ih]

theorem lookupField_spread_left {b : List (String × Json)} {k : String}
    (h : lookupField b k = none) (a : List (String × Json)) :
    lookupField (spreadFields a b) k = lookupField a k := by
  unfold spreadFields
  rw [lookupField_append, lookupField_filter_of_none h a]
  cases ha : lookupField a k <;> simp [Option.orElse, h, ha]

theorem auraClassVal_isString (p : Json) : isStringVal (auraClassVal p) = true := by
  unfold auraClassVal
  split
  · rfl
  · split
    · rfl
    · rfl

theorem auraMethodVal_isString (p : Json) : isStringVal (auraMethodVal p) = true := by
  unfold auraMethodVal
  split
  · rfl
  · split
    · rfl
    · rfl

theorem auraStringGuard_true (p : Json) : auraStringGuard p = true := by
  unfold auraStringGuard
  rw [auraClassVal_isString, auraMethodVal_isString]
  rfl

theorem mkAuraRecord_eq_parsed (env : Env) (ex : Exchange) (res : Option Json)
    (box : Option String) (idx : Nat) (a : Json) :
    mkAuraRecord env ex res box idx a = auraParsedRecord env ex res box idx a := by
  unfold mkAuraRecord
  rw [auraStringGuard_true]
  rfl

theorem boxcarId_mkAuraRecord (env : Env) (ex : Exchange) (res : Option Json)
    (box : Option String) (idx : Nat) (a : Json) :
    (mkAuraRecord env ex res box idx a).boxcarId = box := by
  rw [mkAuraRecord_eq_parsed]
  rfl

theorem boxcarId_auraRecordsFrom (env : Env) (ex : Exchange) (res : Option Json)
    (box : Option String) :
    ∀ (l : List Json) (i : Nat) (r : ApexAction),
      r ∈ auraRecordsFrom env ex res box i l → r.boxcarId = box := by
  intro l
  induction l with
  | nil =>
    intro i r hr
    simp [auraRecordsFrom] at hr
  | cons a rest ih =>
    intro i r hr
    unfold auraRecordsFrom at hr
    rcases List.mem_append.mp hr with h1 | h2
    · by_cases ha : isApexExecuteAction a
      · simp [ha] at h1
        subst h1
        exact boxcarId_mkAuraRecord env ex res box i a
      · simp [ha] at h1
    · exact ih (i + 1) r h2

theorem mkAuraRecord_mem_auraRecordsFrom (env : Env) (ex : Exchange) (res : Option Json)
    (box : Option String) :
    ∀ (l : List Json) (i j : Nat) (a : Json),
      l.get? j = some a → isApexExecuteAction a = true →
      mkAuraRecord env ex res box (i + j) a ∈ auraRecordsFrom env ex res box i l := by
  intro l
  induction l with
  | nil =>
    intro i j a hget
    simp at hget
  | cons x rest ih =>
    intro i j a hget hq
    cases j with
    | zero =>
      simp at hget
      subst hget
      unfold auraRecordsFrom
      apply List.mem_append_left
      simp [hq]
    | succ j' =>
      have heq : i + (j' + 1) = (i + 1) + j' := by omega
      rw [heq]
      unfold auraRecordsFrom
      apply List.mem_append_right
      exact ih (i + 1) j' a (by simpa using hget) hq

theorem strip_mkAuraRecord (e1 e2 : Env) (ex : Exchange) (res : Option Json)
    (b1 b2 : Option String) (i : Nat) (a : Json) :
    stripVolatile (mkAuraRecord e1 ex res b1 i a) =
      stripVolatile (mkAuraRecord e2 ex res b2 i a) := by
  rw [mkAuraRecord_eq_parsed, mkAuraRecord_eq_parsed]
  rfl

theorem strip_auraRecordsFrom (e1 e2 : Env) (ex : Exchange) (res : Option Json)
    (b1 b2 : Option String) :
    ∀ (l : List Json) (i : Nat),
      (auraRecordsFrom e1 ex res b1 i l).map stripVolatile =
        (auraRecordsFrom e2 ex res b2 i l).map stripVolatile := by
  intro l
  induction l with
  | nil => intro i; rfl
  | cons a rest ih =>
    intro i
    unfold auraRecordsFrom
    by_cases ha : isApexExecuteAction a
    · simp only [ha, if_true, List.map_append, List.map_cons, List.map_nil]
      rw [strip_mkAuraRecord e1 e2 ex res b1 b2 i a, ih (i + 1)]
    · simp only [ha, if_false, List.nil_append]
      exact ih (i + 1)

theorem getApexActionUniqueId_none_of_objIdOf (action response perf : Option Json)
    (ha : objIdOf action = none) (hb : objIdOf response = none)
    (hp : (perfSummaryKeys perf).find? isLongIdKey = none) :
    getApexActionUniqueId action response perf = none := by
  unfold getApexActionUniqueId
  rw [ha, hb, hp]

theorem objIdOf_eq_chain (v : Option Json) :
    objIdOf v = (specResolveUniqueId.stringFieldOf v "id").orElse
      (fun _ => specResolveUniqueId.stringFieldOf v "actionId") := by
  cases v with
  | none => rfl
  | some j =>
    cases j with
    | obj fs =>
      show (match lookupField fs "id" with
        | some (Json.str s) => some s
        | _ =>
          match lookupField fs "actionId" with
          | some (Json.str s) => some s
          | _ => none) = _
      unfold specResolveUniqueId.stringFieldOf getStrJ jsGet
      cases h1 : lookupField fs "id" with
      | none =>
        cases h2 : lookupField fs "actionId" with
        | none => simp [h1, h2, Option.orElse]
        | some w => cases w <;> simp [h1, h2, Option.orElse]
      | some w =>
        cases w with
        | str s => simp [h1, Option.orElse]
        | null =>
          cases h2 : lookupField fs "actionId" with
          | none => simp [h1, h2, Option.orElse]
          | some u => cases u <;> simp [h1, h2, Option.orElse]
        | bool b =>
          cases h2 : lookupField fs "actionId" with
          | none => simp [h1, h2, Option.orElse]
          | some u => cases u <;> simp [h1, h2, Option.orElse]
        | num n =>
          cases h2 : lookupField fs "actionId" with
          | none => simp [h1, h2, Option.orElse]
          | some u => cases u <;> simp [h1, h2, Option.orElse]
        | arr xs =>
          cases h2 : lookupField fs "actionId" with
          | none => simp [h1, h2, Option.orElse]
          | some u => cases u <;> simp [h1, h2, Option.orElse]
        | obj gs =>
          cases h2 : lookupField fs "actionId" with
          | none => simp [h1, h2, Option.orElse]
          | some u => cases u <;> simp [h1, h2, Option.orElse]
    | null => rfl
    | bool b => rfl
    | num n => rfl
    | str s => rfl
    | arr xs => rfl

theorem getApexActionUniqueId_eq_spec (action response perf : Option Json) :
    getApexActionUniqueId action response perf = specResolveUniqueId action response perf := by
  have ha := objIdOf_eq_chain action
  have hb := objIdOf_eq_chain response
  unfold getApexActionUniqueId specResolveUniqueId
  rw [ha, hb]
  cases specResolveUniqueId.stringFieldOf action "id" <;>
    cases specResolveUniqueId.stringFieldOf action "actionId" <;>
      cases specResolveUniqueId.stringFieldOf response "id" <;>
        cases specResolveUniqueId.stringFieldOf response "actionId" <;>
          simp [Option.orElse]

theorem auraClassVal_of_none {p : Json} (h1 : getStrJ p "classname" = none)
    (h2 : getStrJ p "className" = none) :
    auraClassVal p = Json.str "[Unknown Class]" := by
  unfold getStrJ at h1 h2
  unfold auraClassVal
  cases ha : jsGet p "classname" with
  | none =>
    cases hb : jsGet p "className" with
    | none => simp
    | some w => cases w <;> simp_all
  | some w =>
    cases w <;> simp_all <;>
      (cases hb : jsGet p "className" with
        | none => simp
        | some u => cases u <;> simp_all)

theorem auraMethodVal_of_none {p : Json} (h1 : getStrJ p "method" = none)
    (h2 : getStrJ p "methodName" = none) :
    auraMethodVal p = Json.str "[Unknown Method]" := by
  unfold getStrJ at h1 h2
  unfold auraMethodVal
  cases ha : jsGet p "method" with
  | none =>
    cases hb : jsGet p "methodName" with
    | none => simp
    | some w => cases w <;> simp_all
  | some w =>
    cases w <;> simp_all <;>
      (cases hb : jsGet p "methodName" with
        | none => simp
        | some u => cases u <;> simp_all)

/-! ### Claim C10 -/

/-- C10: in the AuraBatch normalizer the extracted class and method values are
always strings (the fallback chain ends in the placeholder strings), so the
string-type guard of lines 978-981 holds for every input and the alternate
branch that would emit a `[Unparsed] ApexAction` record with error
`Could not parse Apex class/method. See raw data.` is unreachable: record
construction always takes the parsed branch. -/
theorem c10_string_guard_holds :
    (∀ p : Json, auraStringGuard p = true) ∧
    (∀ (env : Env) (ex : Exchange) (res : Option Json) (box : Option String)
        (idx : Nat) (a : Json),
      mkAuraRecord env ex res box idx a = auraParsedRecord env ex res box idx a) :=
  ⟨auraStringGuard_true,
   fun env ex res box idx a => mkAuraRecord_eq_parsed env ex res box idx a⟩

/-! ### Claim C1 -/

/-- C1 fails on the code: in a batched Aura exchange whose actions and response
entries carry no embedded ids, every record's id resolves to the same
performance-summary key, so two distinct records of one session share an id. -/
theorem c1_counterexample :
    (auraNormalize exampleEnv exampleExchange c1Request (some c1Response)).map ApexAction.id
        = ["actionXYZ123456", "actionXYZ123456"] ∧
    (auraNormalize exampleEnv exampleExchange c1Request (some c1Response)).map ApexAction.apexClass
        = ["AccountController", "ContactController"] := by
  decide

/-- C1 (amended): two distinct records of one Aura exchange whose ids are both
resolved by the positional fallback (no id on the action, the response entry, or
in the performance summary) always receive distinct ids, because the fallback
`exchangeKey + "-" + index` embeds the distinct positions. -/
theorem c1_amended_fallback_ids_distinct (env : Env) (ex : Exchange) (res : Option Json)
    (box : Option String) (i j : Nat) (ai aj : Json)
    (hi : getApexActionUniqueId (some ai) (auraActionResponse res i)
        (jsGetOpt res "perfSummary") = none)
    (hj : getApexActionUniqueId (some aj) (auraActionResponse res j)
        (jsGetOpt res "perfSummary") = none)
    (hij : i ≠ j) :
    (mkAuraRecord env ex res box i ai).id ≠ (mkAuraRecord env ex res box j aj).id := by
  rw [mkAuraRecord_eq_parsed, mkAuraRecord_eq_parsed]
  show auraRecordId ex (some ai) (auraActionResponse res i) (jsGetOpt res "perfSummary") i
      ≠ auraRecordId ex (some aj) (auraActionResponse res j) (jsGetOpt res "perfSummary") j
  unfold auraRecordId
  rw [hi, hj]
  intro h
  exact hij (appendNatId_inj (exchangeKey ex) h)

/-- Witness for the amended C1 at concrete positions 0 and 1 of one exchange. -/
theorem c1_amended_witness :
    (mkAuraRecord exampleEnv exampleExchange none none 0 (Json.obj [])).id ≠
      (mkAuraRecord exampleEnv exampleExchange none none 1 (Json.obj [])).id :=
  c1_amended_fallback_ids_distinct exampleEnv exampleExchange none none 0 1
    (Json.obj []) (Json.obj []) (by decide) (by decide) (by decide)

/-! ### Claim C2 -/

/-- C2 fails on the code: an Aura exchange whose `actions` array has two entries
of which only one qualifies yields exactly one record, and that record carries a
`batchId` — the boxcar id is generated from the total length of the `actions`
array (line 867), not from the number of qualifying entries. -/
theorem c2_counterexample :
    (auraNormalize exampleEnv exampleExchange c2Request (some c1Response)).length = 1 ∧
    (auraNormalize exampleEnv exampleExchange c2Request (some c1Response)).map ApexAction.boxcarId
        = [some "boxcar-w1"] := by
  decide

/-- C2 (amended): for an Aura exchange with an `actions` array, every emitted
record carries the freshly generated `batchId` exactly when the `actions` array
has more than one entry (qualifying or not), independently of how many records
are actually emitted; with at most one entry, `batchId` is absent. -/
theorem c2_amended_boxcar_from_actions_length (env : Env) (ex : Exchange)
    (reqJson : Json) (resJson : Option Json) (actionsArr : List Json)
    (hA : jsGet reqJson "actions" = some (Json.arr actionsArr)) :
    ∀ r ∈ auraNormalize env ex reqJson resJson,
      r.boxcarId = if actionsArr.length > 1 then some (generateBoxcarId env) else none := by
  intro r hr
  unfold auraNormalize at hr
  rw [hA] at hr
  by_cases hN : (isNullish resJson && actionsArr.any isApexExecuteAction) = true
  · simp [hN] at hr
  · simp only [Bool.not_eq_true] at hN
    simp only [hN, Bool.false_eq_true, if_false] at hr
    exact boxcarId_auraRecordsFrom env ex resJson _ actionsArr 0 r hr

/-- Witness for the amended C2: the single record of the two-action exchange
carries the boxcar id. -/
theorem c2_amended_witness :
    ((auraNormalize exampleEnv exampleExchange c2Request (some c1Response)).headD
        defaultApexAction).boxcarId = some "boxcar-w1" := by
  have h := c2_amended_boxcar_from_actions_length exampleEnv exampleExchange c2Request
    (some c1Response) c2Actions rfl
    ((auraNormalize exampleEnv exampleExchange c2Request (some c1Response)).headD
        defaultApexAction)
    (by decide)
  exact h.trans (by decide)

/-! ### Claim C9 -/

/-- C9 fails on the code: `generateBoxcarId` draws fresh randomness on every
normalization run, so normalizing the same batched exchange twice yields records
whose `batchId` fields differ between the two runs. -/
theorem c9_counterexample :
    (auraNormalize exampleEnv exampleExchange c1Request (some c1Response)).map ApexAction.boxcarId
        = [some "boxcar-w1", some "boxcar-w1"] ∧
    (auraNormalize exampleEnvB exampleExchange c1Request (some c1Response)).map ApexAction.boxcarId
        = [some "boxcar-w2", some "boxcar-w2"] ∧
    (some "boxcar-w1" : Option String) ≠ some "boxcar-w2" := by
  decide

/-- C9 (amended): normalizing the same parsed Aura exchange twice produces
record lists that agree in every field except the wall-clock `timestamp` and the
freshly generated `batchId` (for the Aura shape the id is deterministic, derived
from payload ids or the positional fallback). -/
theorem c9_amended_idempotent_up_to_volatile (env1 env2 : Env) (ex : Exchange)
    (reqJson : Json) (resJson : Option Json) (actionsArr : List Json)
    (hA : jsGet reqJson "actions" = some (Json.arr actionsArr)) :
    (auraNormalize env1 ex reqJson resJson).map stripVolatile =
      (auraNormalize env2 ex reqJson resJson).map stripVolatile := by
  unfold auraNormalize
  rw [hA]
  by_cases hN : (isNullish resJson && actionsArr.any isApexExecuteAction) = true
  · simp [hN]
  · simp only [Bool.not_eq_true] at hN
    simp only [hN, Bool.false_eq_true, if_false]
    exact strip_auraRecordsFrom env1 env2 ex resJson _ _ actionsArr 0

/-- Witness for the amended C9 on the concrete batched exchange under two
different environments. -/
theorem c9_amended_witness :
    (auraNormalize exampleEnv exampleExchange c1Request (some c1Response)).map stripVolatile =
      (auraNormalize exampleEnvB exampleExchange c1Request (some c1Response)).map stripVolatile :=
  c9_amended_idempotent_up_to_volatile exampleEnv exampleEnvB exampleExchange c1Request
    (some c1Response) c1Actions rfl

/-! ### Claim C3 -/

/-- C3 fails on the code: the GraphQL test of lines 446-449 inspects only the
URL.  A primary-gateway exchange whose payload contains an action descriptor
referencing the GraphQL execution capability is classified `auraBatch` when the
URL lacks the marker, and a payload without any such descriptor is classified
`GraphQL` when the URL carries the marker. -/
theorem c3_counterexample :
    specPayloadHasGraphQLDescriptor c3DescRequest = true ∧
    classify "https://x.force.com/aura?r=2" (some c3DescRequest) = some CallShape.auraBatch ∧
    specPayloadHasGraphQLDescriptor (Json.obj [("actions", Json.arr [])]) = false ∧
    classify "https://x.force.com/aura?other=executeGraphQL"
        (some (Json.obj [("actions", Json.arr [])])) = some CallShape.graphQL := by
  decide

/-- C3 (amended): for a valid object payload whose URL matches neither the
web-runtime nor the legacy remoting path, the classifier assigns shape GraphQL
exactly when the URL contains both the gateway marker `/aura` and the substring
`executeGraphQL` — a URL test in which the payload plays no part. -/
theorem c3_amended_graphql_is_url_test (url : String) (reqJson : Option Json)
    (hv : validReqData reqJson = true)
    (hw : isWebruntimeUrl url = false)
    (hr : isVfRemotingUrl url = false) :
    classify url reqJson = some CallShape.graphQL ↔
      (strIncludes url "/aura" && strIncludes url "executeGraphQL") = true := by
  have hclassify : classify url reqJson =
      (if isGraphQLCallUrl url then some CallShape.graphQL
       else if isUiRecordApiCall url (reqJson.getD Json.null) then some CallShape.uiRecordApi
       else some CallShape.auraBatch) := by
    unfold classify
    rw [hv, hw, hr]
    simp
  rw [hclassify]
  constructor
  · intro h
    by_cases hg : isGraphQLCallUrl url = true
    · unfold isGraphQLCallUrl at hg
      rw [Bool.and_eq_true] at hg ⊢
      rcases hg with ⟨h1, h2⟩
      rw [Bool.or_eq_true] at h2
      rcases h2 with h3 | h3
      · exact ⟨h1, strIncludes_of_longer url h3⟩
      · exact ⟨h1, h3⟩
    · simp only [Bool.not_eq_true] at hg
      simp only [hg, Bool.false_eq_true, if_false] at h
      by_cases hu : isUiRecordApiCall url (reqJson.getD Json.null) = true <;>
        simp [hu] at h
  · intro h
    rw [Bool.and_eq_true] at h
    rcases h with ⟨h1, h2⟩
    have hg : isGraphQLCallUrl url = true := by
      unfold isGraphQLCallUrl
      rw [Bool.and_eq_true, Bool.or_eq_true]
      exact ⟨h1, Or.inr h2⟩
    simp [hg]

/-- Witness for the amended C3: a gateway URL carrying the GraphQL marker is
classified GraphQL. -/
theorem c3_amended_witness :
    classify "https://x.force.com/aura?r=2&aura.RecordUi.executeGraphQL=1"
        (some (Json.obj [("actions", Json.arr [])])) = some CallShape.graphQL :=
  (c3_amended_graphql_is_url_test "https://x.force.com/aura?r=2&aura.RecordUi.executeGraphQL=1"
      (some (Json.obj [("actions", Json.arr [])]))
      (by decide) (by decide) (by decide)).mpr (by decide)

/-! ### Claim C8 -/

/-- C8: the payload parser leaves the response JSON absent whenever the declared
content type does not indicate JSON — even if the body text itself is valid
JSON — and a parse exception on the body likewise yields absent rather than
propagating. -/
theorem c8_response_gating (r : RawResponse) :
    (contentTypeIsJson r = false → parseResponseJson r = none) ∧
    (∀ s, r.contentText = some (BodyText.malformed s) → parseResponseJson r = none) := by
  constructor
  · intro h
    unfold parseResponseJson
    cases hc : r.contentText with
    | none => rfl
    | some bt => simp [h]
  · intro s h
    unfold parseResponseJson
    rw [h]
    show (if (bodyTruthy (BodyText.malformed s) && contentTypeIsJson r) = true
        then parseBody (BodyText.malformed s) else none) = none
    split <;> rfl

/-- Witness for C8: a well-formed JSON body declared `text/plain` is not decoded,
and a malformed body declared `application/json` yields absent. -/
theorem c8_witness :
    parseResponseJson c8PlainTextResponse = none ∧
    parseResponseJson c8MalformedJsonResponse = none :=
  ⟨(c8_response_gating c8PlainTextResponse).1 (by decide),
   (c8_response_gating c8MalformedJsonResponse).2 "not json" rfl⟩

/-! ### Claim C6 -/

/-- C6: the final id of a fresh Aura record is resolved by trying, in order, an
`id` field on the raw action, an `actionId` field on the raw action, the same two
fields on the raw response fragment, a ≥10-character alphanumeric/hyphen/underscore
performance-summary key, and finally the deterministic `exchangeId + "-" + index`
fallback, the first (truthy) success winning; in particular an action id
`abc123` beats a response `actionId` `zzz`. -/
theorem c6_id_resolution_precedence (action response perf : Option Json)
    (ex : Exchange) (idx : Nat) :
    (getApexActionUniqueId action response perf = specResolveUniqueId action response perf) ∧
    (∀ s, getApexActionUniqueId action response perf = some s → s ≠ "" →
        auraRecordId ex action response perf idx = s) ∧
    (getApexActionUniqueId action response perf = none →
        auraRecordId ex action response perf idx = exchangeKey ex ++ "-" ++ jsNatToString idx) ∧
    (getApexActionUniqueId (some (Json.obj [("id", Json.str "abc123")]))
        (some (Json.obj [("actionId", Json.str "zzz")])) none = some "abc123") := by
  refine ⟨getApexActionUniqueId_eq_spec action response perf, ?_, ?_, by decide⟩
  · intro s hs hne
    unfold auraRecordId
    rw [hs]
    simp [jsOrStr, hne]
  · intro hnone
    unfold auraRecordId
    rw [hnone]
    rfl

/-- Witness for C6: the action id wins over the response id, and with no embedded
id anywhere the positional fallback is used. -/
theorem c6_witness :
    auraRecordId exampleExchange (some (Json.obj [("id", Json.str "abc123")]))
        (some (Json.obj [("actionId", Json.str "zzz")])) none 3 = "abc123" ∧
    auraRecordId exampleExchange none none none 3 = "req-9-3" := by
  constructor
  · exact (c6_id_resolution_precedence (some (Json.obj [("id", Json.str "abc123")]))
      (some (Json.obj [("actionId", Json.str "zzz")])) none exampleExchange 3).2.1
      "abc123" (by decide) (by decide)
  · exact ((c6_id_resolution_precedence none none none exampleExchange 3).2.2.1
      (by decide)).trans (by decide)

/-! ### Claim C4 -/

/-- C4 fails on the code: a qualifying action whose params resolve neither the
primary nor the alternate class/method field names is still emitted with
placeholder names, but carries no diagnostic error message — the string-type
guard always passes (the extraction chain ends in placeholder strings), so the
branch that would attach `Could not parse Apex class/method. See raw data.` is
never taken and `errorMessage` reflects only the response's error state. -/
theorem c4_counterexample :
    (auraNormalize exampleEnv exampleExchange c4Request (some c4Response)).map ApexAction.apexClass
        = ["[Unknown Class]"] ∧
    (auraNormalize exampleEnv exampleExchange c4Request (some c4Response)).map ApexAction.method
        = ["[Unknown Method]"] ∧
    (auraNormalize exampleEnv exampleExchange c4Request (some c4Response)).map ApexAction.error
        = [none] := by
  decide

/-- C4 (amended): a qualifying action whose params resolve neither the primary
nor the alternate class/method field names (and no namespace) is not dropped: a
record is emitted for it carrying the placeholder names `[Unknown Class]` /
`[Unknown Method]`, and its `errorMessage` is absent whenever the response entry
signals no error (no diagnostic message is attached by the failed extraction). -/
theorem c4_amended_placeholders_no_diagnostic (env : Env) (ex : Exchange)
    (reqJson : Json) (resJson : Option Json) (actionsArr : List Json) (idx : Nat) (a : Json)
    (hA : jsGet reqJson "actions" = some (Json.arr actionsArr))
    (hget : actionsArr.get? idx = some a)
    (hq : isApexExecuteAction a = true)
    (hres : isNullish resJson = false)
    (hc1 : getStrJ (auraParams a) "classname" = none)
    (hc2 : getStrJ (auraParams a) "className" = none)
    (hm1 : getStrJ (auraParams a) "method" = none)
    (hm2 : getStrJ (auraParams a) "methodName" = none)
    (hns : getStrJ (auraParams a) "namespace" = none)
    (herr : auraErrorInfo resJson idx = none) :
    mkAuraRecord env ex resJson
        (if actionsArr.length > 1 then some (generateBoxcarId env) else none) idx a
      ∈ auraNormalize env ex reqJson resJson ∧
    (mkAuraRecord env ex resJson
        (if actionsArr.length > 1 then some (generateBoxcarId env) else none) idx a).apexClass
      = "[Unknown Class]" ∧
    (mkAuraRecord env ex resJson
        (if actionsArr.length > 1 then some (generateBoxcarId env) else none) idx a).method
      = "[Unknown Method]" ∧
    (mkAuraRecord env ex resJson
        (if actionsArr.length > 1 then some (generateBoxcarId env) else none) idx a).error
      = none := by
  refine ⟨?_, ?_, ?_, ?_⟩
  · unfold auraNormalize
    rw [hA, hres]
    simp only [Bool.false_and, Bool.false_eq_true, if_false]
    have h := mkAuraRecord_mem_auraRecordsFrom env ex resJson
      (if actionsArr.length > 1 then some (generateBoxcarId env) else none)
      actionsArr 0 idx a hget hq
    rwa [Nat.zero_add] at h
  · rw [mkAuraRecord_eq_parsed]
    show auraNamespacedClass (auraParams a) (asStringVal (auraClassVal (auraParams a)))
        = "[Unknown Class]"
    rw [auraClassVal_of_none hc1 hc2]
    unfold auraNamespacedClass
    rw [hns]
    rfl
  · rw [mkAuraRecord_eq_parsed]
    show asStringVal (auraMethodVal (auraParams a)) = "[Unknown Method]"
    rw [auraMethodVal_of_none hm1 hm2]
    rfl
  · rw [mkAuraRecord_eq_parsed]
    show (auraErrorInfo resJson idx).map Prod.snd = none
    rw [herr]
    rfl

/-- Witness for the amended C4 on the concrete exchange whose single qualifying
action has unrecognizable params. -/
theorem c4_amended_witness :
    mkAuraRecord exampleEnv exampleExchange (some c4Response)
        (if c4Actions.length > 1 then some (generateBoxcarId exampleEnv) else none) 0 c4Action
      ∈ auraNormalize exampleEnv exampleExchange c4Request (some c4Response) ∧
    (mkAuraRecord exampleEnv exampleExchange (some c4Response)
        (if c4Actions.length > 1 then some (generateBoxcarId exampleEnv) else none)
        0 c4Action).apexClass = "[Unknown Class]" ∧
    (mkAuraRecord exampleEnv exampleExchange (some c4Response)
        (if c4Actions.length > 1 then some (generateBoxcarId exampleEnv) else none)
        0 c4Action).method = "[Unknown Method]" ∧
    (mkAuraRecord exampleEnv exampleExchange (some c4Response)
        (if c4Actions.length > 1 then some (generateBoxcarId exampleEnv) else none)
        0 c4Action).error = none :=
  c4_amended_placeholders_no_diagnostic exampleEnv exampleExchange c4Request
    (some c4Response) c4Actions 0 c4Action rfl rfl (by decide) (by decide)
    (by decide) (by decide) (by decide) (by decide) (by decide) (by decide)

/-! ### Claim C5 -/

/-- C5: for an Aura response entry in ERROR state whose `error` field is
`[{message: "Bad input", exceptionType: "X"}]`, the emitted record's error
message is `Bad input`, and its response result contains `exceptionType: "X"`
together with every field of the partial return value as sibling keys — the
error details are flattened into the result itself. -/
theorem c5_error_flattening (env : Env) (ex : Exchange) (box : Option String)
    (idx : Nat) (a : Json) (resObj : Json) (rs : List Json) (rv : List (String × Json))
    (hA : jsGet resObj "actions" = some (Json.arr rs))
    (hget : rs.get? idx = some (c5RespEntry rv))
    (hrv : lookupField rv "exceptionType" = none) :
    (mkAuraRecord env ex (some resObj) box idx a).error = some "Bad input" ∧
    jsGet (mkAuraRecord env ex (some resObj) box idx a).response "exceptionType"
      = some (Json.str "X") ∧
    (∀ k v, lookupField rv k = some v →
      jsGet (mkAuraRecord env ex (some resObj) box idx a).response k = some v) := by
  have hact : auraActionResponse (some resObj) idx = some (c5RespEntry rv) := by
    show jsIndexOpt (jsGet resObj "actions") idx = some (c5RespEntry rv)
    rw [hA]
    exact hget
  have hraw : auraRawResp (some resObj) idx = c5RespEntry rv := by
    unfold auraRawResp
    rw [hact]
    rfl
  have herrinfo : auraErrorInfo (some resObj) idx =
      some ([("message", Json.str "Bad input"), ("exceptionType", Json.str "X")],
        "Bad input") := by
    unfold auraErrorInfo
    rw [hraw]
    rfl
  have hresp : auraResponseObj (some resObj) idx =
      Json.obj (spreadFields
        [("message", Json.str "Bad input"), ("exceptionType", Json.str "X")] rv) := by
    unfold auraResponseObj
    rw [herrinfo, hact]
    rfl
  refine ⟨?_, ?_, ?_⟩
  · rw [mkAuraRecord_eq_parsed]
    show (auraErrorInfo (some resObj) idx).map Prod.snd = some "Bad input"
    rw [herrinfo]
    rfl
  · rw [mkAuraRecord_eq_parsed]
    show jsGet (auraResponseObj (some resObj) idx) "exceptionType" = some (Json.str "X")
    rw [hresp]
    show lookupField (spreadFields
        [("message", Json.str "Bad input"), ("exceptionType", Json.str "X")] rv)
        "exceptionType" = some (Json.str "X")
    rw [lookupField_spread_left hrv]
    rfl
  · intro k v hk
    rw [mkAuraRecord_eq_parsed]
    show jsGet (auraResponseObj (some resObj) idx) k = some v
    rw [hresp]
    exact lookupField_spread_right hk _

/-- Witness for C5 on a concrete exchange: the record's error message, the
flattened `exceptionType`, and the partial return value's `data` field are all
visible on the response result. -/
theorem c5_witness :
    (mkAuraRecord exampleEnv exampleExchange (some c5Response) none 0
        (apexExecAction "OrderController" "place")).error = some "Bad input" ∧
    jsGet (mkAuraRecord exampleEnv exampleExchange (some c5Response) none 0
        (apexExecAction "OrderController" "place")).response "exceptionType"
      = some (Json.str "X") ∧
    jsGet (mkAuraRecord exampleEnv exampleExchange (some c5Response) none 0
        (apexExecAction "OrderController" "place")).response "data"
      = some (Json.str "partial") := by
  have h := c5_error_flattening exampleEnv exampleExchange none 0
    (apexExecAction "OrderController" "place") c5Response [c5RespEntry c5PartialReturn]
    c5PartialReturn rfl rfl (by decide)
  exact ⟨h.1, h.2.1, h.2.2 "data" (Json.str "partial") rfl⟩

/-! ### Claim C7 -/

/-- On the claim's concrete obfuscated class name, the resolution of lines
239-261 reduces to a lookup of the id part in the mappings. -/
theorem resolveWebruntimeClass_at_claim (mappings : List (String × String)) :
    resolveWebruntimeClass mappings "@xyz/01p000000000001" =
      (match mapGet mappings "01p000000000001" with
       | some nm => (nm, none)
       | none => ("01p000000000001",
           some (webruntimeHelpTextInfo "@xyz/01p000000000001"))) := rfl

/-- C7: for a WebruntimeSingle exchange whose class name is the obfuscated form
`@xyz/01p000000000001` (and no namespace field), a mapping entry
`01p000000000001 -> MyController` makes the record's class name `MyController`
with no `needsMapping` context flag, while without a matching entry the class
name is the raw id `01p000000000001` and `contextMetadata.needsMapping` is
`true`. -/
theorem c7_obfuscated_resolution (env : Env) (ex : Exchange)
    (mappings : List (String × String)) (reqJson : Json) (resJson : Option Json)
    (hcls : jsGet reqJson "classname" = some (Json.str "@xyz/01p000000000001"))
    (hns : jsGet reqJson "namespace" = none) :
    (mapGet mappings "01p000000000001" = some "MyController" →
      (webruntimeNormalize env ex mappings reqJson resJson).map ApexAction.apexClass
          = ["MyController"] ∧
      (webruntimeNormalize env ex mappings reqJson resJson).map contextNeedsMapping
          = [none]) ∧
    (mapGet mappings "01p000000000001" = none →
      (webruntimeNormalize env ex mappings reqJson resJson).map ApexAction.apexClass
          = ["01p000000000001"] ∧
      (webruntimeNormalize env ex mappings reqJson resJson).map contextNeedsMapping
          = [some (Json.bool true)]) := by
  have hnorm : webruntimeNormalize env ex mappings reqJson resJson =
      [mkWebruntimeRecord env ex mappings reqJson resJson "@xyz/01p000000000001"] := by
    unfold webruntimeNormalize
    rw [hcls]
    rfl
  have hclassProj : (mkWebruntimeRecord env ex mappings reqJson resJson
      "@xyz/01p000000000001").apexClass =
        (resolveWebruntimeClass mappings "@xyz/01p000000000001").1 := by
    show (match jsGet reqJson "namespace" with
      | some v =>
        if jsTruthy v then
          jsString v ++ "." ++ (resolveWebruntimeClass mappings "@xyz/01p000000000001").1
        else (resolveWebruntimeClass mappings "@xyz/01p000000000001").1
      | none => (resolveWebruntimeClass mappings "@xyz/01p000000000001").1) = _
    rw [hns]
  have hctxProj : contextNeedsMapping (mkWebruntimeRecord env ex mappings reqJson resJson
      "@xyz/01p000000000001") =
        jsGet ((resolveWebruntimeClass mappings "@xyz/01p000000000001").2.getD (Json.obj []))
          "needsMapping" := rfl
  constructor
  · intro h1
    have hres := resolveWebruntimeClass_at_claim mappings
    rw [h1] at hres
    constructor
    · rw [hnorm]
      simp only [List.map_cons, List.map_nil]
      rw [hclassProj, hres]
    · rw [hnorm]
      simp only [List.map_cons, List.map_nil]
      rw [hctxProj, hres]
      rfl
  · intro h2
    have hres := resolveWebruntimeClass_at_claim mappings
    rw [h2] at hres
    constructor
    · rw [hnorm]
      simp only [List.map_cons, List.map_nil]
      rw [hclassProj, hres]
    · rw [hnorm]
      simp only [List.map_cons, List.map_nil]
      rw [hctxProj, hres]
      rfl

/-- Witness for C7: through `parseApexClassMappings` on a concrete CLI blob the
truncated 15-character id resolves to `MyController`; with an empty mapping the
raw id is surfaced with the `needsMapping` flag. -/
theorem c7_witness :
    (webruntimeNormalize exampleEnv exampleExchange (parseApexClassMappings (some c7CliJson))
        c7Request none).map ApexAction.apexClass = ["MyController"] ∧
    (webruntimeNormalize exampleEnv exampleExchange (parseApexClassMappings (some c7CliJson))
        c7Request none).map contextNeedsMapping = [none] ∧
    (webruntimeNormalize exampleEnv exampleExchange [] c7Request none).map ApexAction.apexClass
        = ["01p000000000001"] ∧
    (webruntimeNormalize exampleEnv exampleExchange [] c7Request none).map contextNeedsMapping
        = [some (Json.bool true)] := by
  have h1 := (c7_obfuscated_resolution exampleEnv exampleExchange
    (parseApexClassMappings (some c7CliJson)) c7Request none rfl rfl).1 (by decide)
  have h2 := (c7_obfuscated_resolution exampleEnv exampleExchange [] c7Request none
    rfl rfl).2 (by decide)
  exact ⟨h1.1, h1.2, h2.1, h2.2⟩
